import Mathlib

/-
  Verification development for docker-credential-vault-login.

  Shallow embedding of:
  - the token cache record and its time predicates
    (src/vault-login/cache/token.go),
  - the credential-retrieval orchestrator `Helper.Get` and the
    not-implemented helper operations (src/helper/command.go).

  Machine-level conventions:
  - Instants of time are modelled as `Int` nanoseconds since the Unix epoch,
    matching Go's `time.Time` comparison granularity.  A token's `Expiration`
    field is an `Int` of whole seconds (as in the source); the instant it
    denotes is `expiration * nsPerSecond` (Go: `time.Unix(t.Expiration, 0)`).
  - External collaborators (config loader, Vault client construction,
    cached-token reads, the vault agent auth handler and sink server, the
    secret exchange) are modelled as an explicit environment `Env` of
    oracles consumed in the exact order the source consumes them.
  - `Get` additionally produces a trace of the observable actions it
    performs (renew attempts, exchanges, task starts, channel handoffs,
    completion-signal waits), so that ordering and counting claims are
    statable.
-/

/-! ## Token cache record (src/vault-login/cache/token.go) -/

/-- Grace period constant, src/vault-login/cache/token.go:21
(`const GracePeriodSeconds int64 = 600`). -/
def GracePeriodSeconds : Int := 600

/-- Nanoseconds per second; Go `time.Time` instants have nanosecond
granularity while the cached expiration is whole seconds. -/
def nsPerSecond : Int := 1000000000

/-- CachedToken, src/vault-login/cache/token.go:23-38.  The `AuthMethod`
bookkeeping field plays no role in the predicates and is omitted. -/
structure CachedToken where
  token : String
  expiration : Int
  renewable : Bool
deriving Repr, DecidableEq

/-- Expired, src/vault-login/cache/token.go:42-44:
`return time.Now().After(time.Unix(t.Expiration, 0))`.
Go's `After` is a strict comparison, so this is `expiration-instant < now`.
`now` is the evaluation instant in nanoseconds. -/
def Expired (t : CachedToken) (now : Int) : Bool :=
  decide (t.expiration * nsPerSecond < now)

/-- EligibleForRenewal, src/vault-login/cache/token.go:51-56:
`windowStart := expiration.Add(-GracePeriodSeconds seconds)` and
`return t.Renewable && now.Before(expiration) && now.After(windowStart)`.
Both `Before` and `After` are strict comparisons. -/
def EligibleForRenewal (t : CachedToken) (now : Int) : Bool :=
  t.renewable
    && decide (now < t.expiration * nsPerSecond)
    && decide (t.expiration * nsPerSecond - GracePeriodSeconds * nsPerSecond < now)

/-! ## Helper data model (src/helper/command.go) -/

/-- Caller-visible Go error values.  The source constructs exactly two:
`notImplementedError` (command.go:34) and
`credentials.NewErrCredentialsNotFound()`; `other` stands for any further
error kind a Go `error` could in principle carry. -/
inductive GoError
  | credentialsNotFound
  | notImplemented
  | other (msg : String)
deriving Repr, DecidableEq

/-- notImplementedError, src/helper/command.go:34. -/
def notImplementedError : GoError := GoError.notImplemented

/-- Username/password pair produced by a successful secret exchange
(`vault.GetCredentials`). -/
structure Creds where
  username : String
  password : String
deriving Repr, DecidableEq

namespace Helper

/-- Helper.Add, src/helper/command.go:59-61: `return notImplementedError`.
Pure: the returned value is its entire effect. -/
def Add (_creds : Creds) : Option GoError := some notImplementedError

/-- Helper.Delete, src/helper/command.go:63-65: `return notImplementedError`. -/
def Delete (_serverURL : String) : Option GoError := some notImplementedError

/-- Helper.List, src/helper/command.go:67-69:
`return nil, notImplementedError`.  The nil map is modelled as `none`. -/
def ListCreds : Option (List (String × String)) × Option GoError :=
  (none, some notImplementedError)

end Helper

/-! ## Configuration shape consumed by Get (command.go:96-125, 235-295) -/

/-- Value found under `auto_auth.method.config["secret"]`: either a string
or some non-string HCL value (command.go:120-125 type-asserts to string). -/
inductive ConfigValue
  | str (s : String)
  | other
deriving Repr, DecidableEq

/-- The slice of `config.Method` that Get consumes: the type tag
(buildMethod's switch, command.go:273-290) and the `secret` entry of its
config map (command.go:113). -/
structure MethodConfig where
  type : String
  secret : Option ConfigValue
deriving Repr, DecidableEq

/-- The slice of `config.Sink` that Get consumes: the type tag
(buildSinks' switch, command.go:238-257). -/
structure SinkCfg where
  type : String
deriving Repr, DecidableEq

/-- The `auto_auth` block (command.go:108-113, 138, 166, 172). -/
structure AutoAuthConfig where
  method : MethodConfig
  sinks : List SinkCfg
deriving Repr, DecidableEq

/-- Loaded configuration; `config.AutoAuth` may be absent (command.go:108). -/
structure Config where
  autoAuth : Option AutoAuthConfig
deriving Repr, DecidableEq

/-- Auth-method type tags accepted by buildMethod's switch,
src/helper/command.go:273-290. -/
def knownMethodTypes : List String :=
  ["alicloud", "aws", "azure", "gcp", "jwt", "kubernetes", "approle"]

/-- buildMethod, src/helper/command.go:262-295: unknown type tag is an
error; otherwise the `New*AuthMethod` constructor may fail (oracle
`ctorOk`).  The constructed method itself is opaque. -/
def buildMethod (ctorOk : Bool) (mc : MethodConfig) : Option Unit :=
  if mc.type ∈ knownMethodTypes then
    if ctorOk then some () else none
  else none

/-- buildSinks, src/helper/command.go:235-260: iterates the configured
sinks in order; a non-"file" type or a failing `file.NewFileSink`
(oracle `fileSinkOk`) aborts with an error, otherwise every sink config
is collected in order. -/
def buildSinks (fileSinkOk : SinkCfg → Bool) : List SinkCfg → Option (List SinkCfg)
  | [] => some []
  | sc :: rest =>
    if sc.type = "file" then
      if fileSinkOk sc then
        match buildSinks fileSinkOk rest with
        | some built => some (sc :: built)
        | none => none
      else none
    else none

/-! ## Orchestrator events, oracles and result -/

/-- Observable actions of one Get execution, in program order:
renewal attempts (command.go:144-148), setting/clearing the client token
(152, 164, 224), cached and fresh secret exchanges (155, 227), starting
the two concurrent tasks (194-195), the token handoff (209), waits on the
tasks' completion channels (201-202, 214-215, 222), and context
cancellation (221). -/
inductive Event
  | renewAttempt (t : String)
  | setToken (t : String)
  | clearToken
  | cachedExchangeAttempt (t : String)
  | startAuthHandler
  | startSinkServer
  | sendToken (t : String)
  | waitAhDone
  | waitSsDone
  | cancelCtx
  | freshExchangeAttempt (t : String)
deriving Repr, DecidableEq

/-- Which branch the first select (command.go:198-207) takes: the shared
deadline fires before the auth handler produces a token, or a fresh token
arrives on `ah.OutputCh`. -/
inductive LoginRace
  | deadline
  | output (tok : String)
deriving Repr, DecidableEq

/-- Which branch the second select (command.go:211-219) takes: the shared
deadline fires before the sink server finishes persisting, or `ss.DoneCh`
fires (persistence to all sinks completed). -/
inductive PersistRace
  | deadline
  | done
deriving Repr, DecidableEq

/-- The Go return triple of Get, `(username, password, error)`, together
with the trace of observable actions the execution performed. -/
structure GetRet where
  username : String
  password : String
  err : Option GoError
  trace : List Event
deriving Repr, DecidableEq

/-- Outcome of one Get invocation: either control returns to the caller
with a `GetRet`, or the process panics (Go runtime nil-pointer panic). -/
inductive GetExec
  | panicked
  | returns (r : GetRet)
deriving Repr, DecidableEq

/-- Environment of oracles for one Get invocation, consumed in source
order.  External collaborators are modelled by their outcomes:

- `loggerInjected` / `logWriterOk`: whether `h.logger` was injected and
  whether `logging.LogWriter` succeeds (command.go:73-89; `LogWriter` is
  repository code outside src/, only its fallible signature is used here).
- `loadConfig`: `config.LoadConfig` result; `none` is a load error,
  `some none` a nil config (command.go:96-106).
- `clientInjected` / `newClientOk`: whether a Vault client was injected
  and whether `api.NewClient` succeeds (command.go:127-133).
- `cachedTokens` / `cacheReadErr`: result of `cache.GetCachedTokens`
  (command.go:138-141); the error is logged and ignored, so it does not
  influence control flow.
- `exchange`: outcome of `vault.GetCredentials(secret, client)` as a
  function of the client's active token (command.go:155, 227).
- `fileSinkOk` / `methodCtorOk`: constructor oracles for buildSinks and
  buildMethod.
- `loginRace` / `persistRace`: outcomes of the two deadline races of the
  fresh-login phase. -/
structure Env where
  loggerInjected : Bool
  logWriterOk : Bool
  loadConfig : Option (Option Config)
  clientInjected : Bool
  newClientOk : Bool
  cachedTokens : List String
  cacheReadErr : Bool
  exchange : String → Option Creds
  fileSinkOk : SinkCfg → Bool
  methodCtorOk : Bool
  loginRace : LoginRace
  persistRace : PersistRace

/-- Events of the cached-token exchange loop for a given token list, two
per token tried (`h.client.SetToken` then `vault.GetCredentials`). -/
def cachedAttemptEvents : List String → List Event
  | [] => []
  | t :: rest =>
    Event.setToken t :: Event.cachedExchangeAttempt t :: cachedAttemptEvents rest

/-- The cached-token exchange loop, src/helper/command.go:151-161: for
each cached token in sink order, set it on the client and attempt the
exchange; the first success returns its credentials, a failure moves on
to the next token.  Returns the events performed and the first success,
if any. -/
def tryCachedTokens (exchange : String → Option Creds) : List String → List Event × Option Creds
  | [] => ([], none)
  | t :: rest =>
    match exchange t with
    | some c => ([Event.setToken t, Event.cachedExchangeAttempt t], some c)
    | none =>
      (Event.setToken t :: Event.cachedExchangeAttempt t :: (tryCachedTokens exchange rest).1,
       (tryCachedTokens exchange rest).2)

/-- The fresh-login phase, src/helper/command.go:178-232, entered after
both tasks are started (`go ah.Run`, `go ss.Run`, command.go:194-195).

Modelled from the spec: `auth.AuthHandler.Run` and `sink.SinkServer.Run`
are external vault agent library code; per the spec's task contract
(section 4.4 and section 5) their completion signals always eventually
fire and the single-producer/single-consumer token handoff is accepted,
so the waits `<-ah.DoneCh` / `<-ss.DoneCh` and the send
`newTokenCh <- token` are modelled as events that complete.

Control flow of the source: the first select races the deadline against
`ah.OutputCh`; on deadline it waits for both done channels and returns
not-found.  Otherwise the token is handed to the sink server and the
second select races the deadline against `ss.DoneCh`; on deadline it
waits for both done channels and returns not-found.  Otherwise the
context is cancelled, `ah.DoneCh` is awaited, the fresh token becomes the
client token, and exactly one exchange decides the final outcome. -/
def freshPhase (exchange : String → Option Creds) (lr : LoginRace) (pr : PersistRace) : GetRet :=
  match lr with
  | LoginRace.deadline =>
      ⟨"", "", some GoError.credentialsNotFound,
        [Event.startAuthHandler, Event.startSinkServer, Event.waitAhDone, Event.waitSsDone]⟩
  | LoginRace.output tok =>
    match pr with
    | PersistRace.deadline =>
        ⟨"", "", some GoError.credentialsNotFound,
          [Event.startAuthHandler, Event.startSinkServer, Event.sendToken tok,
           Event.waitAhDone, Event.waitSsDone]⟩
    | PersistRace.done =>
      match exchange tok with
      | none =>
          ⟨"", "", some GoError.credentialsNotFound,
            [Event.startAuthHandler, Event.startSinkServer, Event.sendToken tok,
             Event.cancelCtx, Event.waitAhDone, Event.setToken tok,
             Event.freshExchangeAttempt tok]⟩
      | some c =>
          ⟨c.username, c.password, none,
            [Event.startAuthHandler, Event.startSinkServer, Event.sendToken tok,
             Event.cancelCtx, Event.waitAhDone, Event.setToken tok,
             Event.freshExchangeAttempt tok]⟩

/-- Helper.Get, src/helper/command.go:71-233, in source order:

1. Logger setup (73-89).  When no logger was injected and
   `logging.LogWriter` fails, the source calls `h.logger.Error` on the
   still-nil `hclog.Logger` interface (command.go:82), a nil-pointer
   dereference: the invocation panics.
2. Configuration (91-125): load error, nil config, missing `auto_auth`
   block, missing or non-string `secret` field each return
   `credentials.NewErrCredentialsNotFound()`.
3. Client (127-133): with no injected client, a failing `api.NewClient`
   returns not-found.
4. Cached tokens (138-148): read tokens (read errors only logged), then
   best-effort renewal of every cached token (results ignored).
5. Cached exchange loop (151-161): first successful exchange returns its
   username/password immediately.
6. Fall-through (163-176): clear the client token; buildSinks then
   buildMethod, each failure returning not-found.
7. Fresh-login phase (178-232): see `freshPhase`. -/
def Get (env : Env) (_serverURL : String) : GetExec :=
  if env.loggerInjected = false ∧ env.logWriterOk = false then GetExec.panicked
  else
    match env.loadConfig with
    | none => GetExec.returns ⟨"", "", some GoError.credentialsNotFound, []⟩
    | some none => GetExec.returns ⟨"", "", some GoError.credentialsNotFound, []⟩
    | some (some cfg) =>
      match cfg.autoAuth with
      | none => GetExec.returns ⟨"", "", some GoError.credentialsNotFound, []⟩
      | some aa =>
        match aa.method.secret with
        | none => GetExec.returns ⟨"", "", some GoError.credentialsNotFound, []⟩
        | some ConfigValue.other =>
            GetExec.returns ⟨"", "", some GoError.credentialsNotFound, []⟩
        | some (ConfigValue.str _secret) =>
          if env.clientInjected = false ∧ env.newClientOk = false then
            GetExec.returns ⟨"", "", some GoError.credentialsNotFound, []⟩
          else
            match (tryCachedTokens env.exchange env.cachedTokens).2 with
            | some c =>
                GetExec.returns ⟨c.username, c.password, none,
                  env.cachedTokens.map Event.renewAttempt
                    ++ (tryCachedTokens env.exchange env.cachedTokens).1⟩
            | none =>
              match buildSinks env.fileSinkOk aa.sinks with
              | none =>
                  GetExec.returns ⟨"", "", some GoError.credentialsNotFound,
                    env.cachedTokens.map Event.renewAttempt
                      ++ (tryCachedTokens env.exchange env.cachedTokens).1
                      ++ [Event.clearToken]⟩
              | some _ =>
                match buildMethod env.methodCtorOk aa.method with
                | none =>
                    GetExec.returns ⟨"", "", some GoError.credentialsNotFound,
                      env.cachedTokens.map Event.renewAttempt
                        ++ (tryCachedTokens env.exchange env.cachedTokens).1
                        ++ [Event.clearToken]⟩
                | some _ =>
                    GetExec.returns
                      ⟨(freshPhase env.exchange env.loginRace env.persistRace).username,
                       (freshPhase env.exchange env.loginRace env.persistRace).password,
                       (freshPhase env.exchange env.loginRace env.persistRace).err,
                       env.cachedTokens.map Event.renewAttempt
                         ++ (tryCachedTokens env.exchange env.cachedTokens).1
                         ++ [Event.clearToken]
                         ++ (freshPhase env.exchange env.loginRace env.persistRace).trace⟩

/-! ## Event classifiers -/

/-- Recognizes cached-token exchange attempts in a trace. -/
def isCachedEx : Event → Bool
  | Event.cachedExchangeAttempt _ => true
  | _ => false

/-- Recognizes fresh-token exchange attempts in a trace. -/
def isFreshEx : Event → Bool
  | Event.freshExchangeAttempt _ => true
  | _ => false

/-- Recognizes the start of the login task in a trace. -/
def isStartAuth : Event → Bool
  | Event.startAuthHandler => true
  | _ => false

/-! ## Structural lemmas about traces -/

/-- The renewal loop never starts the login task. -/
@[simp]
theorem startAuth_not_mem_renew (l : List String) :
    Event.startAuthHandler ∉ l.map Event.renewAttempt := by
  simp [List.mem_map]

/-- The cached-token exchange loop never starts the login task. -/
@[simp]
theorem startAuth_not_mem_try (ex : String → Option Creds) (l : List String) :
    Event.startAuthHandler ∉ (tryCachedTokens ex l).1 := by
  induction l with
  | nil => simp [tryCachedTokens]
  | cons t rest ih => cases hx : ex t <;> simp [tryCachedTokens, hx, ih]

/-- The renewal loop performs no fresh-token exchange. -/
@[simp]
theorem freshEx_not_mem_renew (t : String) (l : List String) :
    Event.freshExchangeAttempt t ∉ l.map Event.renewAttempt := by
  simp [List.mem_map]

/-- The cached-token exchange loop performs no fresh-token exchange. -/
@[simp]
theorem freshEx_not_mem_try (ex : String → Option Creds) (t : String) (l : List String) :
    Event.freshExchangeAttempt t ∉ (tryCachedTokens ex l).1 := by
  induction l with
  | nil => simp [tryCachedTokens]
  | cons u rest ih => cases hx : ex u <;> simp [tryCachedTokens, hx, ih]

/-- The cached-attempt events never include the login-task start. -/
@[simp]
theorem startAuth_not_mem_attempts (l : List String) :
    Event.startAuthHandler ∉ cachedAttemptEvents l := by
  induction l with
  | nil => simp [cachedAttemptEvents]
  | cons t rest ih => simp [cachedAttemptEvents, ih]

/-- The cached-attempt events never include a fresh-token exchange. -/
@[simp]
theorem freshEx_not_mem_attempts (t : String) (l : List String) :
    Event.freshExchangeAttempt t ∉ cachedAttemptEvents l := by
  induction l with
  | nil => simp [cachedAttemptEvents]
  | cons u rest ih => simp [cachedAttemptEvents, ih]

/-- When every token in the list fails exchange, the loop tries them all
and reports no success. -/
theorem tryCachedTokens_all_fail (ex : String → Option Creds) :
    ∀ l : List String, (∀ t ∈ l, ex t = none) →
      tryCachedTokens ex l = (cachedAttemptEvents l, none) := by
  intro l
  induction l with
  | nil => intro _; rfl
  | cons t rest ih =>
    intro h
    have ht : ex t = none := h t (List.mem_cons_self t rest)
    have hr := ih (fun x hx => h x (List.mem_cons_of_mem t hx))
    simp [tryCachedTokens, ht, hr, cachedAttemptEvents]

/-- When the tokens before position k all fail and the token at position k
succeeds, the loop performs exactly the attempts for positions 1..k and
returns the creds of token k. -/
theorem tryCachedTokens_split (ex : String → Option Creds) (tk : String)
    (post : List String) (c : Creds) :
    ∀ pre : List String, (∀ t ∈ pre, ex t = none) → ex tk = some c →
      tryCachedTokens ex (pre ++ tk :: post) = (cachedAttemptEvents (pre ++ [tk]), some c) := by
  intro pre
  induction pre with
  | nil =>
    intro _ htk
    simp [tryCachedTokens, htk, cachedAttemptEvents]
  | cons t rest ih =>
    intro h htk
    have ht : ex t = none := h t (List.mem_cons_self t rest)
    have hr := ih (fun x hx => h x (List.mem_cons_of_mem t hx)) htk
    simp [tryCachedTokens, ht, hr, cachedAttemptEvents]

/-- Renewal events are not cached-exchange attempts. -/
theorem filter_isCachedEx_renew (l : List String) :
    (l.map Event.renewAttempt).filter isCachedEx = [] := by
  induction l with
  | nil => rfl
  | cons t rest ih => simp [isCachedEx, ih]

/-- The cached-exchange attempts recorded for a token list are exactly one
per token, in list order. -/
theorem filter_isCachedEx_attempts (l : List String) :
    (cachedAttemptEvents l).filter isCachedEx = l.map Event.cachedExchangeAttempt := by
  induction l with
  | nil => rfl
  | cons t rest ih => simp [cachedAttemptEvents, isCachedEx, ih]

/-- A trace with no fresh-exchange event filters to none. -/
theorem filter_isFreshEx_nil (l : List Event)
    (h : ∀ t, Event.freshExchangeAttempt t ∉ l) :
    l.filter isFreshEx = [] := by
  rw [List.filter_eq_nil_iff]
  intro e he
  cases e
  case freshExchangeAttempt t => exact absurd he (h t)
  all_goals simp [isFreshEx]

/-- A trace not containing the login-task start filters to none. -/
theorem filter_isStartAuth_nil (l : List Event)
    (h : Event.startAuthHandler ∉ l) :
    l.filter isStartAuth = [] := by
  rw [List.filter_eq_nil_iff]
  intro e he
  cases e
  case startAuthHandler => exact absurd he h
  all_goals simp [isStartAuth]

/-- The fresh-login phase always starts with the login task. -/
theorem startAuth_mem_freshPhase (ex : String → Option Creds) (lr : LoginRace)
    (pr : PersistRace) :
    Event.startAuthHandler ∈ (freshPhase ex lr pr).trace := by
  cases lr with
  | deadline => simp [freshPhase]
  | output tok =>
    cases pr with
    | deadline => simp [freshPhase]
    | done => cases hx : ex tok <;> simp [freshPhase, hx]

/-- A fresh-token exchange appears in the fresh-phase trace only when the
persistence race was won (the sink server's done signal fired before the
deadline). -/
theorem freshPhase_freshEx_persisted (ex : String → Option Creds) (lr : LoginRace)
    (pr : PersistRace) (t : String)
    (h : Event.freshExchangeAttempt t ∈ (freshPhase ex lr pr).trace) :
    pr = PersistRace.done := by
  cases lr with
  | deadline => simp [freshPhase] at h
  | output tok =>
    cases pr with
    | deadline => simp [freshPhase] at h
    | done => rfl

/-- Case analysis on a returning Get execution: either it never entered
the fresh-login phase (and then its trace holds no login-task start and
no fresh exchange), or its result is the fresh-phase result prefixed by
the cache-phase trace. -/
theorem get_returns_cases (env : Env) (url : String) (r : GetRet)
    (h : Get env url = GetExec.returns r) :
    (Event.startAuthHandler ∉ r.trace ∧ ∀ t, Event.freshExchangeAttempt t ∉ r.trace)
    ∨ (∃ tr0, Event.startAuthHandler ∉ tr0 ∧ (∀ t, Event.freshExchangeAttempt t ∉ tr0) ∧
        r = ⟨(freshPhase env.exchange env.loginRace env.persistRace).username,
             (freshPhase env.exchange env.loginRace env.persistRace).password,
             (freshPhase env.exchange env.loginRace env.persistRace).err,
             tr0 ++ (freshPhase env.exchange env.loginRace env.persistRace).trace⟩) := by
  unfold Get at h
  repeat' split at h
  all_goals cases h
  all_goals first
    | (refine Or.inl ⟨?_, fun t => ?_⟩ <;> simp
       done)
    | (refine Or.inr ⟨env.cachedTokens.map Event.renewAttempt
         ++ ((tryCachedTokens env.exchange env.cachedTokens).1 ++ [Event.clearToken]),
         ?_, fun t => ?_, ?_⟩ <;> simp [List.append_assoc])

/-! ## C5: Expired -/

/-- C5 counterexample: the claim says `Expired()` is true iff the
evaluation time is at or after the expiration timestamp.  At exactly the
expiration instant (token expiring at Unix second 100, evaluated at
100 s), the code's strict `time.Now().After(...)` returns false although
the evaluation time is at the expiration timestamp, so the claimed
equivalence fails. -/
theorem expired_at_boundary_counterexample :
    ¬ (Expired ⟨"tok", 100, false⟩ (100 * nsPerSecond) = true
        ↔ 100 * nsPerSecond ≥ (100 : Int) * nsPerSecond) := by
  decide

/-- C5 (amended): for every cached token and evaluation instant,
`Expired()` returns true iff the evaluation time is strictly after the
token's expiration timestamp; at or before it, it returns false. -/
theorem expired_iff_strictly_after (t : CachedToken) (now : Int) :
    Expired t now = true ↔ t.expiration * nsPerSecond < now := by
  simp [Expired]

/-- Witness for C5's amended theorem at a concrete token and instant one
nanosecond past expiry. -/
theorem expired_iff_strictly_after_witness :
    Expired ⟨"tok", 100, false⟩ (100 * nsPerSecond + 1) = true :=
  (expired_iff_strictly_after ⟨"tok", 100, false⟩ (100 * nsPerSecond + 1)).mpr (by decide)

/-! ## C6: EligibleForRenewal -/

/-- C6 counterexample: the claim says eligibility holds on the half-open
window `expiration - 600s <= now < expiration` for a renewable token.  At
exactly the window start (token expiring at Unix second 1000, evaluated
at 400 s = 1000 s - 600 s), the code's strict `now.After(windowStart)`
returns false although the claimed condition holds, so the claimed
equivalence fails. -/
theorem eligible_at_window_start_counterexample :
    ¬ (EligibleForRenewal ⟨"tok", 1000, true⟩ (400 * nsPerSecond) = true
        ↔ (true = true ∧ ((1000 : Int) - 600) * nsPerSecond ≤ 400 * nsPerSecond
            ∧ 400 * nsPerSecond < (1000 : Int) * nsPerSecond)) := by
  decide

/-- C6 (amended): for every cached token and evaluation instant,
`EligibleForRenewal()` returns true iff the token is renewable and the
evaluation time lies in the open window
`expiration - 600s < now < expiration`; it is false outside that window,
false whenever `renewable` is false regardless of timing, and in
particular false for any expired token even if marked renewable. -/
theorem eligible_iff_open_window (t : CachedToken) (now : Int) :
    EligibleForRenewal t now = true ↔
      (t.renewable = true
        ∧ t.expiration * nsPerSecond - GracePeriodSeconds * nsPerSecond < now
        ∧ now < t.expiration * nsPerSecond) := by
  simp [EligibleForRenewal]
  tauto

/-- Witness for C6's amended theorem: a renewable token strictly inside
the grace window is eligible. -/
theorem eligible_iff_open_window_witness :
    EligibleForRenewal ⟨"tok", 1000, true⟩ (500 * nsPerSecond) = true :=
  (eligible_iff_open_window ⟨"tok", 1000, true⟩ (500 * nsPerSecond)).mpr (by decide)

/-! ## C10: Add / Delete / List -/

/-- C10: for every input, Helper.Add and Helper.Delete return the
'not implemented' error, and Helper.List returns the nil map together
with the same 'not implemented' error.  All three are pure constant
functions of their input: none performs any state change and none ever
succeeds (the returned error is never nil). -/
theorem helper_ops_not_implemented :
    (∀ c : Creds, Helper.Add c = some notImplementedError)
    ∧ (∀ s : String, Helper.Delete s = some notImplementedError)
    ∧ Helper.ListCreds = (none, some notImplementedError) :=
  ⟨fun _ => rfl, fun _ => rfl, rfl⟩

/-! ## C1: cached-token short-circuit -/

/-- C1: with a valid configuration, when the cached tokens at positions
1..k-1 fail the secret exchange and the token at position k succeeds, Get
performs exactly the k exchange attempts for positions 1..k in sink
order, returns the username/password obtained from token k, and never
performs an exchange with the remaining tokens nor a fresh login. -/
theorem get_cached_short_circuit (env : Env) (url : String) (cfg : Config)
    (aa : AutoAuthConfig) (s : String) (pre : List String) (tk : String)
    (post : List String) (c : Creds)
    (hlog : env.loggerInjected = true ∨ env.logWriterOk = true)
    (hcfg : env.loadConfig = some (some cfg))
    (haa : cfg.autoAuth = some aa)
    (hsec : aa.method.secret = some (ConfigValue.str s))
    (hcli : env.clientInjected = true ∨ env.newClientOk = true)
    (htoks : env.cachedTokens = pre ++ tk :: post)
    (hpre : ∀ t ∈ pre, env.exchange t = none)
    (htk : env.exchange tk = some c) :
    ∃ tr, Get env url = GetExec.returns ⟨c.username, c.password, none, tr⟩
      ∧ tr.filter isCachedEx = (pre ++ [tk]).map Event.cachedExchangeAttempt
      ∧ Event.startAuthHandler ∉ tr := by
  have hlog' : ¬(env.loggerInjected = false ∧ env.logWriterOk = false) := by
    rcases hlog with h | h <;> simp [h]
  have hcli' : ¬(env.clientInjected = false ∧ env.newClientOk = false) := by
    rcases hcli with h | h <;> simp [h]
  have hsplit := tryCachedTokens_split env.exchange tk post c pre hpre htk
  have hget : Get env url = GetExec.returns
      ⟨c.username, c.password, none,
        (pre ++ tk :: post).map Event.renewAttempt ++ cachedAttemptEvents (pre ++ [tk])⟩ := by
    unfold Get
    rw [if_neg hlog']
    simp only [hcfg, haa, hsec]
    rw [if_neg hcli']
    simp only [htoks, hsplit]
  refine ⟨_, hget, ?_, ?_⟩
  · rw [List.filter_append, filter_isCachedEx_renew, filter_isCachedEx_attempts,
      List.nil_append]
  · simp

/-! ## C2: exhausted cache always falls through to fresh login -/

/-- C2: with a valid configuration, whenever the cached-token phase
yields no successful exchange (including with zero cached tokens), Get
returns (it does not fail earlier), and it proceeds to the fresh-login
phase whenever the configured sinks and login method can be constructed;
conversely, when it returns without having started the login task, the
outcome is the not-found error and sink or method construction failed. -/
theorem get_cache_exhausted_fresh_login (env : Env) (url : String) (cfg : Config)
    (aa : AutoAuthConfig) (s : String)
    (hlog : env.loggerInjected = true ∨ env.logWriterOk = true)
    (hcfg : env.loadConfig = some (some cfg))
    (haa : cfg.autoAuth = some aa)
    (hsec : aa.method.secret = some (ConfigValue.str s))
    (hcli : env.clientInjected = true ∨ env.newClientOk = true)
    (hfail : ∀ t ∈ env.cachedTokens, env.exchange t = none) :
    ∃ r, Get env url = GetExec.returns r
      ∧ ((buildSinks env.fileSinkOk aa.sinks).isSome →
          (buildMethod env.methodCtorOk aa.method).isSome →
          Event.startAuthHandler ∈ r.trace)
      ∧ (Event.startAuthHandler ∉ r.trace →
          r.err = some GoError.credentialsNotFound
          ∧ (buildSinks env.fileSinkOk aa.sinks = none
             ∨ buildMethod env.methodCtorOk aa.method = none)) := by
  have hlog' : ¬(env.loggerInjected = false ∧ env.logWriterOk = false) := by
    rcases hlog with h | h <;> simp [h]
  have hcli' : ¬(env.clientInjected = false ∧ env.newClientOk = false) := by
    rcases hcli with h | h <;> simp [h]
  have htry := tryCachedTokens_all_fail env.exchange env.cachedTokens hfail
  unfold Get
  rw [if_neg hlog']
  simp only [hcfg, haa, hsec]
  rw [if_neg hcli']
  simp only [htry]
  cases hbs : buildSinks env.fileSinkOk aa.sinks with
  | none =>
    refine ⟨_, rfl, ?_, fun _ => ⟨rfl, Or.inl rfl⟩⟩
    intro hs _
    simp at hs
  | some sb =>
    cases hbm : buildMethod env.methodCtorOk aa.method with
    | none =>
      refine ⟨_, rfl, ?_, fun _ => ⟨rfl, Or.inr rfl⟩⟩
      intro _ hm
      simp at hm
    | some u =>
      refine ⟨_, rfl, fun _ _ => ?_, fun hns => absurd ?_ hns⟩
      · simp [startAuth_mem_freshPhase]
      · simp [startAuth_mem_freshPhase]

/-! ## C3: login deadline expiry -/

/-- C3: in any returning execution that entered the fresh-login phase,
if the login race was lost to the shared deadline, Get returns the
not-found outcome and its trace records the waits on both tasks'
completion signals before the return. -/
theorem get_login_deadline_notfound (env : Env) (url : String) (r : GetRet)
    (h : Get env url = GetExec.returns r)
    (hstart : Event.startAuthHandler ∈ r.trace)
    (hlr : env.loginRace = LoginRace.deadline) :
    r.username = "" ∧ r.password = "" ∧ r.err = some GoError.credentialsNotFound
      ∧ Event.waitAhDone ∈ r.trace ∧ Event.waitSsDone ∈ r.trace := by
  rcases get_returns_cases env url r h with ⟨hns, _⟩ | ⟨tr0, _, _, hr⟩
  · exact absurd hstart hns
  · subst hr
    rw [hlr]
    refine ⟨rfl, rfl, rfl, ?_, ?_⟩ <;> simp [freshPhase]

/-! ## C4: persistence deadline expiry and exchange-after-persist -/

/-- C4: in any returning execution, (a) if the fresh-login phase was
entered, the login produced a token, and the persistence race was then
lost to the shared deadline, Get returns the not-found outcome and its
trace holds no secret exchange with any fresh token; and (b) every
fresh-token exchange in any trace happens only when the sink server's
completion fired before the deadline, i.e. only after persistence to the
sinks completed. -/
theorem get_persist_deadline_guard (env : Env) (url : String) (r : GetRet)
    (h : Get env url = GetExec.returns r) :
    (∀ tok, Event.startAuthHandler ∈ r.trace →
        env.loginRace = LoginRace.output tok →
        env.persistRace = PersistRace.deadline →
        r.username = "" ∧ r.password = "" ∧ r.err = some GoError.credentialsNotFound
          ∧ ∀ t, Event.freshExchangeAttempt t ∉ r.trace)
    ∧ (∀ t, Event.freshExchangeAttempt t ∈ r.trace →
        env.persistRace = PersistRace.done) := by
  rcases get_returns_cases env url r h with ⟨hns, hnf⟩ | ⟨tr0, hns0, hnf0, hr⟩
  · exact ⟨fun tok hstart _ _ => absurd hstart hns, fun t ht => absurd ht (hnf t)⟩
  · subst hr
    constructor
    · intro tok _ hlr hpr
      rw [hlr, hpr]
      refine ⟨rfl, rfl, rfl, fun t => ?_⟩
      simp [freshPhase, hnf0 t]
    · intro t ht
      have ht' : Event.freshExchangeAttempt t
          ∈ tr0 ++ (freshPhase env.exchange env.loginRace env.persistRace).trace := ht
      rcases List.mem_append.mp ht' with h1 | h2
      · exact absurd h1 (hnf0 t)
      · exact freshPhase_freshEx_persisted env.exchange env.loginRace env.persistRace t h2

/-! ## C9: the fresh exchange is final -/

/-- C9: in any returning execution that entered the fresh-login phase
where the login produced token `tok` and persistence completed before the
deadline, Get sets the fresh token as the client's active credential and
performs exactly one secret exchange, with the fresh token; the trace
ends at that exchange (nothing follows it: no retry, no further cached
attempt), the login task was started exactly once (no second login), and
whatever the exchange returns is the final outcome of the retrieval. -/
theorem get_fresh_exchange_final (env : Env) (url : String) (r : GetRet) (tok : String)
    (h : Get env url = GetExec.returns r)
    (hstart : Event.startAuthHandler ∈ r.trace)
    (hlr : env.loginRace = LoginRace.output tok)
    (hpr : env.persistRace = PersistRace.done) :
    (∃ pre, r.trace = pre ++ [Event.freshExchangeAttempt tok])
    ∧ r.trace.filter isFreshEx = [Event.freshExchangeAttempt tok]
    ∧ r.trace.filter isStartAuth = [Event.startAuthHandler]
    ∧ Event.setToken tok ∈ r.trace
    ∧ ((∃ c, env.exchange tok = some c ∧ r.username = c.username
          ∧ r.password = c.password ∧ r.err = none)
       ∨ (env.exchange tok = none ∧ r.err = some GoError.credentialsNotFound)) := by
  rcases get_returns_cases env url r h with ⟨hns, _⟩ | ⟨tr0, hns0, hnf0, hr⟩
  · exact absurd hstart hns
  · subst hr
    rw [hlr, hpr]
    cases hx : env.exchange tok with
    | none =>
      simp only [freshPhase, hx]
      refine ⟨⟨tr0 ++ [Event.startAuthHandler, Event.startSinkServer, Event.sendToken tok,
          Event.cancelCtx, Event.waitAhDone, Event.setToken tok], by simp⟩,
        ?_, ?_, by simp, ?_⟩
      · rw [List.filter_append, filter_isFreshEx_nil tr0 hnf0, List.nil_append]
        simp [isFreshEx]
      · rw [List.filter_append, filter_isStartAuth_nil tr0 hns0, List.nil_append]
        simp [isStartAuth]
      · simp
    | some c =>
      simp only [freshPhase, hx]
      refine ⟨⟨tr0 ++ [Event.startAuthHandler, Event.startSinkServer, Event.sendToken tok,
          Event.cancelCtx, Event.waitAhDone, Event.setToken tok], by simp⟩,
        ?_, ?_, by simp, ?_⟩
      · rw [List.filter_append, filter_isFreshEx_nil tr0 hnf0, List.nil_append]
        simp [isFreshEx]
      · rw [List.filter_append, filter_isStartAuth_nil tr0 hns0, List.nil_append]
        simp [isStartAuth]
      · simp

/-! ## C7: the nil-logger panic -/

/-- A Helper.Get invocation on a Helper built by `NewHelper(nil)` (no
logger injected) in an environment where `logging.LogWriter` fails, for
example because the log file cannot be opened. -/
def envPanic : Env where
  loggerInjected := false
  logWriterOk := false
  loadConfig := none
  clientInjected := false
  newClientOk := false
  cachedTokens := []
  cacheReadErr := false
  exchange := fun _ => none
  fileSinkOk := fun _ => false
  methodCtorOk := false
  loginRace := LoginRace.deadline
  persistRace := PersistRace.deadline

/-- C7: at the failing input (nil logger, failing log-writer creation),
Get panics instead of returning an outcome: src/helper/command.go:82
calls `h.logger.Error` while `h.logger` is still the nil `hclog.Logger`
interface, a nil-pointer dereference. -/
theorem get_nil_logger_panics :
    Get envPanic "registry.example.com" = GetExec.panicked := rfl

/-! ## C8: termination and outcome delivery -/

/-- Error component of every fresh-phase result: the not-found error or
nil. -/
theorem freshPhase_err (ex : String → Option Creds) (lr : LoginRace) (pr : PersistRace) :
    (freshPhase ex lr pr).err = some GoError.credentialsNotFound
      ∨ (freshPhase ex lr pr).err = none := by
  cases lr with
  | deadline => exact Or.inl rfl
  | output tok =>
    cases pr with
    | deadline => exact Or.inl rfl
    | done =>
      cases hx : ex tok with
      | none => simp [freshPhase, hx]
      | some c => simp [freshPhase, hx]

/-- Supporting fact for the outcome contract: every returning execution
carries either a nil error or the single credentials-not-found error —
no other caller-visible error kind exists on any path. -/
theorem get_err_classification (env : Env) (url : String) (r : GetRet)
    (h : Get env url = GetExec.returns r) :
    r.err = none ∨ r.err = some GoError.credentialsNotFound := by
  unfold Get at h
  repeat' split at h
  all_goals cases h
  all_goals first
    | exact Or.inl rfl
    | exact Or.inr rfl
    | exact (freshPhase_err env.exchange env.loginRace env.persistRace).elim Or.inr Or.inl

/-- A second invocation at the panic input, with a different server URL. -/
def envPanicB : Env where
  loggerInjected := false
  logWriterOk := false
  loadConfig := some none
  clientInjected := false
  newClientOk := false
  cachedTokens := ["stale"]
  cacheReadErr := true
  exchange := fun _ => none
  fileSinkOk := fun _ => true
  methodCtorOk := true
  loginRace := LoginRace.deadline
  persistRace := PersistRace.deadline

/-- C8 counterexample: an invocation of Get that does not return an
outcome to the caller — with no injected logger and a failing log-writer
creation, the execution panics (src/helper/command.go:82), so not every
invocation returns. -/
theorem get_panicked_no_return_counterexample :
    ¬ ∃ r, Get envPanicB "registry-1.docker.io" = GetExec.returns r := by
  rintro ⟨r, hr⟩
  rw [show Get envPanicB "registry-1.docker.io" = GetExec.panicked from rfl] at hr
  cases hr

/-- Characterization of the panic: a Get invocation panics exactly when
no logger was injected and the log-writer creation fails. -/
theorem get_panicked_iff (env : Env) (url : String) :
    Get env url = GetExec.panicked
      ↔ (env.loggerInjected = false ∧ env.logWriterOk = false) := by
  constructor
  · intro h
    by_cases hc : env.loggerInjected = false ∧ env.logWriterOk = false
    · exact hc
    · unfold Get at h
      rw [if_neg hc] at h
      repeat' split at h
      all_goals cases h
  · intro hc
    unfold Get
    rw [if_pos hc]

/-- C8 (amended): provided the logger setup does not hit the nil-logger
panic (a logger was injected, or the log writer opens successfully), and
with the external tasks honoring their completion-signal contract (as
modelled in `freshPhase`), every invocation of Get terminates and
returns an outcome to the caller: no execution path — including deadline
expiry at any point of the fresh-login path — blocks forever. -/
theorem get_total_returns (env : Env) (url : String)
    (hlog : env.loggerInjected = true ∨ env.logWriterOk = true) :
    ∃ r, Get env url = GetExec.returns r := by
  cases hres : Get env url with
  | returns r => exact ⟨r, rfl⟩
  | panicked =>
    have hc := (get_panicked_iff env url).mp hres
    rcases hlog with h | h <;> simp [h] at hc

/-! ## Concrete environments and witnesses -/

/-- A valid auto_auth block: aws login method with a string `secret`
field and one file sink. -/
def aaDemo : AutoAuthConfig :=
  ⟨⟨"aws", some (ConfigValue.str "secret/docker/creds")⟩, [⟨"file"⟩]⟩

/-- A loaded configuration holding `aaDemo`. -/
def cfgDemo : Config := ⟨some aaDemo⟩

/-- Environment with three cached tokens whose second one exchanges
successfully. -/
def envC1 : Env where
  loggerInjected := true
  logWriterOk := true
  loadConfig := some (some cfgDemo)
  clientInjected := true
  newClientOk := true
  cachedTokens := ["tok1", "tok2", "tok3"]
  cacheReadErr := false
  exchange := fun t => if t = "tok2" then some ⟨"alice", "hunter2"⟩ else none
  fileSinkOk := fun _ => true
  methodCtorOk := true
  loginRace := LoginRace.deadline
  persistRace := PersistRace.deadline

/-- Witness for C1 at `envC1`: two exchange attempts (tok1 then tok2),
tok2's credentials returned, tok3 and the fresh login never attempted. -/
theorem get_cached_short_circuit_witness :
    ∃ tr, Get envC1 "https://registry.example.com" = GetExec.returns
        ⟨"alice", "hunter2", none, tr⟩
      ∧ tr.filter isCachedEx = (["tok1"] ++ ["tok2"]).map Event.cachedExchangeAttempt
      ∧ Event.startAuthHandler ∉ tr :=
  get_cached_short_circuit envC1 "https://registry.example.com" cfgDemo aaDemo
    "secret/docker/creds" ["tok1"] "tok2" ["tok3"] ⟨"alice", "hunter2"⟩
    (Or.inl rfl) rfl rfl rfl (Or.inl rfl) rfl (by decide) (by decide)

/-- Environment with no cached tokens and buildable sinks and method. -/
def envC2 : Env where
  loggerInjected := true
  logWriterOk := true
  loadConfig := some (some cfgDemo)
  clientInjected := true
  newClientOk := true
  cachedTokens := []
  cacheReadErr := false
  exchange := fun _ => none
  fileSinkOk := fun _ => true
  methodCtorOk := true
  loginRace := LoginRace.deadline
  persistRace := PersistRace.deadline

/-- Witness for C2 at `envC2` (zero cached tokens). -/
theorem get_cache_exhausted_fresh_login_witness :
    ∃ r, Get envC2 "https://registry.example.com" = GetExec.returns r
      ∧ ((buildSinks envC2.fileSinkOk aaDemo.sinks).isSome →
          (buildMethod envC2.methodCtorOk aaDemo.method).isSome →
          Event.startAuthHandler ∈ r.trace)
      ∧ (Event.startAuthHandler ∉ r.trace →
          r.err = some GoError.credentialsNotFound
          ∧ (buildSinks envC2.fileSinkOk aaDemo.sinks = none
             ∨ buildMethod envC2.methodCtorOk aaDemo.method = none)) :=
  get_cache_exhausted_fresh_login envC2 "https://registry.example.com" cfgDemo aaDemo
    "secret/docker/creds" (Or.inl rfl) rfl rfl rfl (Or.inl rfl) (by decide)

/-- Environment whose fresh-login phase loses the login race to the
deadline. -/
def envC3 : Env where
  loggerInjected := true
  logWriterOk := true
  loadConfig := some (some cfgDemo)
  clientInjected := true
  newClientOk := true
  cachedTokens := []
  cacheReadErr := false
  exchange := fun _ => none
  fileSinkOk := fun _ => true
  methodCtorOk := true
  loginRace := LoginRace.deadline
  persistRace := PersistRace.deadline

/-- The result of `Get envC3`: not-found after waiting for both tasks. -/
def rC3 : GetRet :=
  ⟨"", "", some GoError.credentialsNotFound,
    [Event.clearToken, Event.startAuthHandler, Event.startSinkServer,
     Event.waitAhDone, Event.waitSsDone]⟩

/-- Witness for C3 at `envC3`. -/
theorem get_login_deadline_notfound_witness :
    rC3.username = "" ∧ rC3.password = "" ∧ rC3.err = some GoError.credentialsNotFound
      ∧ Event.waitAhDone ∈ rC3.trace ∧ Event.waitSsDone ∈ rC3.trace :=
  get_login_deadline_notfound envC3 "https://registry.example.com" rC3 rfl (by decide) rfl

/-- Environment whose login succeeds but whose persistence loses the race
to the deadline. -/
def envC4 : Env where
  loggerInjected := true
  logWriterOk := true
  loadConfig := some (some cfgDemo)
  clientInjected := true
  newClientOk := true
  cachedTokens := []
  cacheReadErr := false
  exchange := fun _ => none
  fileSinkOk := fun _ => true
  methodCtorOk := true
  loginRace := LoginRace.output "ftok4"
  persistRace := PersistRace.deadline

/-- The result of `Get envC4`: not-found, token handed off but never
exchanged. -/
def rC4 : GetRet :=
  ⟨"", "", some GoError.credentialsNotFound,
    [Event.clearToken, Event.startAuthHandler, Event.startSinkServer,
     Event.sendToken "ftok4", Event.waitAhDone, Event.waitSsDone]⟩

/-- Witness for C4 at `envC4`: the outcome is not-found and the fresh
token is never exchanged. -/
theorem get_persist_deadline_guard_witness :
    rC4.err = some GoError.credentialsNotFound
      ∧ Event.freshExchangeAttempt "ftok4" ∉ rC4.trace := by
  have h := get_persist_deadline_guard envC4 "https://registry.example.com" rC4 rfl
  have h1 := h.1 "ftok4" (by decide) rfl rfl
  exact ⟨h1.2.2.1, h1.2.2.2 "ftok4"⟩

/-- Environment whose fresh login and persistence both succeed and whose
fresh token exchanges successfully. -/
def envC9 : Env where
  loggerInjected := true
  logWriterOk := true
  loadConfig := some (some cfgDemo)
  clientInjected := true
  newClientOk := true
  cachedTokens := []
  cacheReadErr := false
  exchange := fun t => if t = "ftok9" then some ⟨"bob", "pw9"⟩ else none
  fileSinkOk := fun _ => true
  methodCtorOk := true
  loginRace := LoginRace.output "ftok9"
  persistRace := PersistRace.done

/-- The result of `Get envC9`: bob's credentials after persisting and
exchanging the fresh token. -/
def rC9 : GetRet :=
  ⟨"bob", "pw9", none,
    [Event.clearToken, Event.startAuthHandler, Event.startSinkServer,
     Event.sendToken "ftok9", Event.cancelCtx, Event.waitAhDone,
     Event.setToken "ftok9", Event.freshExchangeAttempt "ftok9"]⟩

/-- Witness for C9 at `envC9`: exactly one fresh exchange, one login
start, and the fresh token set as the active credential. -/
theorem get_fresh_exchange_final_witness :
    rC9.trace.filter isFreshEx = [Event.freshExchangeAttempt "ftok9"]
      ∧ rC9.trace.filter isStartAuth = [Event.startAuthHandler]
      ∧ Event.setToken "ftok9" ∈ rC9.trace := by
  have h := get_fresh_exchange_final envC9 "https://registry.example.com" rC9 "ftok9"
    rfl (by decide) rfl rfl
  exact ⟨h.2.1, h.2.2.1, h.2.2.2.1⟩

/-- Environment with an injected logger (no panic possible). -/
def envC8 : Env where
  loggerInjected := true
  logWriterOk := false
  loadConfig := some (some cfgDemo)
  clientInjected := true
  newClientOk := true
  cachedTokens := ["tokA"]
  cacheReadErr := false
  exchange := fun _ => none
  fileSinkOk := fun _ => true
  methodCtorOk := true
  loginRace := LoginRace.output "ftok8"
  persistRace := PersistRace.done

/-- Witness for C8's amended theorem at `envC8`. -/
theorem get_total_returns_witness :
    ∃ r, Get envC8 "https://registry.example.com" = GetExec.returns r :=
  get_total_returns envC8 "https://registry.example.com" (Or.inl rfl)
